import Mathlib

/-! Verification of nrf_socket.h: byte order, descriptor sets, constant tables.

A shallow embedding of the executable parts of `bsdlib/include/nrf_socket.h`
(the function-like macros) and of its declarative parts (constants, typedefs,
structure declarations, documented return contracts), followed by the
properties proved about them.

Machine integers are natural numbers; every place where C truncates to a
fixed width carries an explicit `% 2 ^ w`.
-/

namespace NrfSocket

/-! ## Byte order macros (nrf_socket.h lines 611-636) -/

/-- Macro `#define NRF_HTONS(val)
((uint16_t)((((val) & 0xff00) >> 8) | ((((val) & 0x00ff) << 8))))`.
The cast to `uint16_t` is the final `% 2 ^ 16`. -/
def NRF_HTONS (val : Nat) : Nat :=
  (((val &&& 0xff00) >>> 8) ||| ((val &&& 0x00ff) <<< 8)) % 2 ^ 16

/-- Macro `#define NRF_HTONL(val)`: each of the four terms first casts `val` to
`uint32_t` (`% 2 ^ 32`), masks one byte and shifts it; the left shifts are
`uint32_t` shifts and so are reduced `% 2 ^ 32`. -/
def NRF_HTONL (val : Nat) : Nat :=
  ((((val % 2 ^ 32) &&& 0xff000000) >>> 24) |||
   (((val % 2 ^ 32) &&& 0x00ff0000) >>> 8) |||
   ((((val % 2 ^ 32) &&& 0x0000ff00) <<< 8) % 2 ^ 32) |||
   ((((val % 2 ^ 32) &&& 0x000000ff) <<< 24) % 2 ^ 32))

/-- Macro `#define NRF_NTOHS(val) NRF_HTONS(val)`. -/
def NRF_NTOHS (val : Nat) : Nat := NRF_HTONS val

/-- Macro `#define NRF_NTOHL(val) NRF_HTONL(val)`. -/
def NRF_NTOHL (val : Nat) : Nat := NRF_HTONL val

/-- Macro `#define nrf_htons(x) NRF_HTONS(x)`. -/
def nrf_htons (x : Nat) : Nat := NRF_HTONS x

/-- Macro `#define nrf_htonl(x) NRF_HTONL(x)`. -/
def nrf_htonl (x : Nat) : Nat := NRF_HTONL x

/-- Macro `#define nrf_ntohs(x) NRF_NTOHS(x)`. -/
def nrf_ntohs (x : Nat) : Nat := NRF_NTOHS x

/-- Macro `#define nrf_ntohl(x) NRF_NTOHL(x)`. -/
def nrf_ntohl (x : Nat) : Nat := NRF_NTOHL x

/-! ## Descriptor sets (nrf_socket.h lines 795-800)

The header has `typedef uint32_t nrf_fd_set;` : a set is a natural number below `2 ^ 32`.
The macros that assign through the pointer return the new value of the set.
The shift `1u << fd` is a shift of a 32-bit `unsigned int`, modelled as
`(1 <<< fd) % 2 ^ 32`. -/

/-- Macro `#define NRF_FD_ZERO(set) (*(set) = 0)`. -/
def NRF_FD_ZERO (_set : Nat) : Nat := 0

/-- Macro `#define NRF_FD_SET(fd, set) (*(set) |= (1u << (fd)))`. -/
def NRF_FD_SET (fd : Nat) (set : Nat) : Nat :=
  (set ||| ((1 <<< fd) % 2 ^ 32)) % 2 ^ 32

/-- Macro `#define NRF_FD_CLR(fd, set) (*(set) &= ~(1u << (fd)))`; the complement of a
32-bit value `x` is `2 ^ 32 - 1 - x`. -/
def NRF_FD_CLR (fd : Nat) (set : Nat) : Nat :=
  (set &&& (2 ^ 32 - 1 - (1 <<< fd) % 2 ^ 32)) % 2 ^ 32

/-- Macro `#define NRF_FD_ISSET(fd, set) (*(set) & (1u << (fd)))`. -/
def NRF_FD_ISSET (fd : Nat) (set : Nat) : Nat :=
  set &&& ((1 <<< fd) % 2 ^ 32)

/-! ## Poll events (nrf_socket.h lines 803-813) -/

def NRF_POLLIN : Nat := 0x0001
def NRF_POLLOUT : Nat := 0x0002
def NRF_POLLERR : Nat := 0x0004
def NRF_POLLNVAL : Nat := 0x0008

/-- The four events of the group `nrf_poll_events`. -/
inductive PollEvent
  | POLLIN
  | POLLOUT
  | POLLERR
  | POLLNVAL
  deriving DecidableEq, Repr

/-- The macro value of an event. -/
def PollEvent.bits : PollEvent → Nat
  | .POLLIN => NRF_POLLIN
  | .POLLOUT => NRF_POLLOUT
  | .POLLERR => NRF_POLLERR
  | .POLLNVAL => NRF_POLLNVAL

/-- All four events, in declaration order. -/
def PollEvent.all : List PollEvent := [.POLLIN, .POLLOUT, .POLLERR, .POLLNVAL]

/-- The mask stored in `requested` / `returned` for a collection of events:
the bitwise OR of the members. -/
def pollMask : List PollEvent → Nat
  | [] => 0
  | e :: es => e.bits ||| pollMask es

/-! ## Socket option levels and names (nrf_socket.h lines 411-473) -/

def NRF_SOL_SOCKET : Nat := 1
def NRF_SOL_SECURE : Nat := 282
def NRF_SOL_PDN : Nat := 514
def NRF_SOL_DFU : Nat := 515

def NRF_SO_SEC_ROLE : Nat := 1
def NRF_SO_SEC_TAG_LIST : Nat := 2
def NRF_SO_SEC_SESSION_CACHE : Nat := 3
def NRF_SO_SEC_PEER_VERIFY : Nat := 4
def NRF_SO_HOSTNAME : Nat := 5
def NRF_SO_CIPHERSUITE_LIST : Nat := 6
def NRF_SO_CIPHER_IN_USE : Nat := 7

def NRF_SO_PDN_AF : Nat := 1
def NRF_SO_PDN_CLASS : Nat := 2

def NRF_SO_DFU_FW_VERSION : Nat := 1
def NRF_SO_DFU_RESOURCE : Nat := 2
def NRF_SO_DFU_TIMEO : Nat := 3
def NRF_SO_DFU_APPLY : Nat := 4
def NRF_SO_DFU_REVERT : Nat := 5
def NRF_SO_DFU_BACKUP_DELETE : Nat := 6
def NRF_SO_DFU_OFFSET : Nat := 7

def NRF_SO_ERROR : Nat := 4
def NRF_SO_RCVTIMEO : Nat := 20
def NRF_SO_BINDTODEVICE : Nat := 25

/-- The four option levels. -/
def optionLevels : List Nat := [NRF_SOL_SOCKET, NRF_SOL_SECURE, NRF_SOL_PDN, NRF_SOL_DFU]

/-- The nineteen option names the header defines, one constructor per
`#define NRF_SO_...`, in the order of the header. -/
inductive SockOpt
  | SEC_ROLE | SEC_TAG_LIST | SEC_SESSION_CACHE | SEC_PEER_VERIFY
  | HOSTNAME | CIPHERSUITE_LIST | CIPHER_IN_USE
  | PDN_AF | PDN_CLASS
  | DFU_FW_VERSION | DFU_RESOURCE | DFU_TIMEO | DFU_APPLY | DFU_REVERT
  | DFU_BACKUP_DELETE | DFU_OFFSET
  | ERROR | RCVTIMEO | BINDTODEVICE
  deriving DecidableEq, Repr

/-- Every option name, in the order of the header. -/
def SockOpt.all : List SockOpt :=
  [.SEC_ROLE, .SEC_TAG_LIST, .SEC_SESSION_CACHE, .SEC_PEER_VERIFY,
   .HOSTNAME, .CIPHERSUITE_LIST, .CIPHER_IN_USE,
   .PDN_AF, .PDN_CLASS,
   .DFU_FW_VERSION, .DFU_RESOURCE, .DFU_TIMEO, .DFU_APPLY, .DFU_REVERT,
   .DFU_BACKUP_DELETE, .DFU_OFFSET,
   .ERROR, .RCVTIMEO, .BINDTODEVICE]

/-- The level an option belongs to, from the doxygen group it is defined in:
`nrf_socket_options_secure_sockets` (TLS/DTLS, level `NRF_SOL_SECURE`),
`nrf_socket_options_pdn_sockets` (`NRF_SOL_PDN`),
`nrf_socket_options_dfu_sockets` (`NRF_SOL_DFU`),
`nrf_socket_options_sockets` (general, `NRF_SOL_SOCKET`). -/
def SockOpt.level : SockOpt → Nat
  | .SEC_ROLE | .SEC_TAG_LIST | .SEC_SESSION_CACHE | .SEC_PEER_VERIFY
  | .HOSTNAME | .CIPHERSUITE_LIST | .CIPHER_IN_USE => NRF_SOL_SECURE
  | .PDN_AF | .PDN_CLASS => NRF_SOL_PDN
  | .DFU_FW_VERSION | .DFU_RESOURCE | .DFU_TIMEO | .DFU_APPLY | .DFU_REVERT
  | .DFU_BACKUP_DELETE | .DFU_OFFSET => NRF_SOL_DFU
  | .ERROR | .RCVTIMEO | .BINDTODEVICE => NRF_SOL_SOCKET

/-- The macro value of an option name. -/
def SockOpt.optname : SockOpt → Nat
  | .SEC_ROLE => NRF_SO_SEC_ROLE
  | .SEC_TAG_LIST => NRF_SO_SEC_TAG_LIST
  | .SEC_SESSION_CACHE => NRF_SO_SEC_SESSION_CACHE
  | .SEC_PEER_VERIFY => NRF_SO_SEC_PEER_VERIFY
  | .HOSTNAME => NRF_SO_HOSTNAME
  | .CIPHERSUITE_LIST => NRF_SO_CIPHERSUITE_LIST
  | .CIPHER_IN_USE => NRF_SO_CIPHER_IN_USE
  | .PDN_AF => NRF_SO_PDN_AF
  | .PDN_CLASS => NRF_SO_PDN_CLASS
  | .DFU_FW_VERSION => NRF_SO_DFU_FW_VERSION
  | .DFU_RESOURCE => NRF_SO_DFU_RESOURCE
  | .DFU_TIMEO => NRF_SO_DFU_TIMEO
  | .DFU_APPLY => NRF_SO_DFU_APPLY
  | .DFU_REVERT => NRF_SO_DFU_REVERT
  | .DFU_BACKUP_DELETE => NRF_SO_DFU_BACKUP_DELETE
  | .DFU_OFFSET => NRF_SO_DFU_OFFSET
  | .ERROR => NRF_SO_ERROR
  | .RCVTIMEO => NRF_SO_RCVTIMEO
  | .BINDTODEVICE => NRF_SO_BINDTODEVICE

/-- The `(level, optname)` argument pair that `nrf_setsockopt` and
`nrf_getsockopt` receive for an option. -/
def SockOpt.key (o : SockOpt) : Nat × Nat := (o.level, o.optname)

/-- The options of one level. -/
def optionsOfLevel (l : Nat) : List SockOpt := SockOpt.all.filter (fun o => o.level == l)

/-! ## Arguments of `nrf_socket(family, type, protocol)` -/

def NRF_AF_LOCAL : Nat := 1
def NRF_AF_INET : Nat := 2
def NRF_AF_INET6 : Nat := 10
def NRF_AF_LTE : Nat := 102

def NRF_SOCK_STREAM : Nat := 1
def NRF_SOCK_DGRAM : Nat := 2
def NRF_SOCK_MGMT : Nat := 512

def NRF_IPPROTO_TCP : Nat := 1
def NRF_IPPROTO_UDP : Nat := 2
def NRF_SPROTO_TLS1v2 : Nat := 260
def NRF_SPROTO_TLS1v3 : Nat := 261
def NRF_SPROTO_DTLS1v2 : Nat := 270
def NRF_PROTO_AT : Nat := 513
def NRF_PROTO_PDN : Nat := 514
def NRF_PROTO_DFU : Nat := 515

/-- The address family constants, group `nrf_socket_families`. -/
def socketFamilies : List Nat := [NRF_AF_LOCAL, NRF_AF_INET, NRF_AF_INET6, NRF_AF_LTE]

/-- The socket type constants. -/
def socketTypes : List Nat := [NRF_SOCK_STREAM, NRF_SOCK_DGRAM, NRF_SOCK_MGMT]

/-- The protocol constants. -/
def socketProtocols : List Nat :=
  [NRF_IPPROTO_TCP, NRF_IPPROTO_UDP, NRF_SPROTO_TLS1v2, NRF_SPROTO_TLS1v3,
   NRF_SPROTO_DTLS1v2, NRF_PROTO_AT, NRF_PROTO_PDN, NRF_PROTO_DFU]

/-! ## Socket address structures (nrf_socket.h lines 39-45, 89-179, 667)

The structure declarations are data: a list of fields, each with the type
name the header writes. Typedef names are resolved with the typedefs of the
header. Objects live in a byte-addressed memory; a cast of a pointer keeps the
address and changes the declaration through which the bytes are read. -/

/-- The type names that occur in the fields of the socket address structures. -/
inductive CType
  | uint8_t | uint16_t | uint32_t | int
  | nrf_in_port_t | nrf_in_addr_t | nrf_socket_family_t | nrf_sa_family_t
  | struct_nrf_in_addr | struct_nrf_in6_addr
  | char_flexible_array
  deriving DecidableEq, Repr

/-- One typedef step: `typedef uint16_t nrf_in_port_t;`,
`typedef uint32_t nrf_in_addr_t;`, `typedef int nrf_socket_family_t;`,
`typedef nrf_socket_family_t nrf_sa_family_t;`. -/
def CType.typedefOf : CType → Option CType
  | .nrf_in_port_t => some .uint16_t
  | .nrf_in_addr_t => some .uint32_t
  | .nrf_socket_family_t => some .int
  | .nrf_sa_family_t => some .nrf_socket_family_t
  | _ => none

/-- Follow at most `fuel` typedef steps. -/
def CType.resolve : Nat → CType → CType
  | 0, t => t
  | fuel + 1, t =>
    match t.typedefOf with
    | some u => CType.resolve fuel u
    | none => t

/-- The underlying type of a type name; the header has four typedef names, so
no chain is longer than four steps. -/
def CType.underlying (t : CType) : CType := CType.resolve 4 t

/-- The parameters of the target that the header leaves open: size and
alignment of `int`, alignment of the 16-bit and 32-bit types, byte order. -/
structure ABI where
  intSize : Nat
  intAlign : Nat
  align16 : Nat
  align32 : Nat
  bigEndian : Bool

/-- The 32-bit little-endian Arm target of the library. -/
def ABI.arm32 : ABI :=
  { intSize := 4, intAlign := 4, align16 := 2, align32 := 4, bigEndian := false }

/-- Size in bytes of an object of the type. `struct nrf_in_addr` holds one
`nrf_in_addr_t`, `struct nrf_in6_addr` holds `uint8_t s6_addr[16]`, the
flexible array member `char sa_data[]` takes no space. -/
def typeSize (abi : ABI) (t : CType) : Nat :=
  match t.underlying with
  | .uint8_t => 1
  | .uint16_t => 2
  | .uint32_t => 4
  | .int => abi.intSize
  | .struct_nrf_in_addr => 4
  | .struct_nrf_in6_addr => 16
  | _ => 0

/-- Alignment in bytes of an object of the type. -/
def typeAlign (abi : ABI) (t : CType) : Nat :=
  match t.underlying with
  | .uint16_t => abi.align16
  | .uint32_t => abi.align32
  | .int => abi.intAlign
  | .struct_nrf_in_addr => abi.align32
  | _ => 1

/-- Whether the underlying type is a signed integer type. -/
def isSigned (t : CType) : Bool :=
  match t.underlying with
  | .int => true
  | _ => false

/-- The field names of the three structures. -/
inductive FieldName
  | sin_len | sin_family | sin_port | sin_addr
  | sin6_len | sin6_family | sin6_port | sin6_flowinfo | sin6_addr | sin6_scope_id
  | sa_len | sa_family | sa_data
  deriving DecidableEq, Repr

/-- A field of a structure declaration. -/
structure Field where
  name : FieldName
  type : CType
  deriving DecidableEq, Repr

/-- Declaration `struct nrf_sockaddr_in`. -/
def nrf_sockaddr_in : List Field :=
  [⟨.sin_len, .uint8_t⟩, ⟨.sin_family, .nrf_sa_family_t⟩, ⟨.sin_port, .nrf_in_port_t⟩,
   ⟨.sin_addr, .struct_nrf_in_addr⟩]

/-- Declaration `struct nrf_sockaddr_in6`. -/
def nrf_sockaddr_in6 : List Field :=
  [⟨.sin6_len, .uint8_t⟩, ⟨.sin6_family, .nrf_sa_family_t⟩, ⟨.sin6_port, .nrf_in_port_t⟩,
   ⟨.sin6_flowinfo, .uint32_t⟩, ⟨.sin6_addr, .struct_nrf_in6_addr⟩,
   ⟨.sin6_scope_id, .uint32_t⟩]

/-- Declaration `struct nrf_sockaddr`. -/
def nrf_sockaddr : List Field :=
  [⟨.sa_len, .uint8_t⟩, ⟨.sa_family, .int⟩, ⟨.sa_data, .char_flexible_array⟩]

/-- The first multiple of `a` that is not below `pos` (`pos` itself when `a = 0`). -/
def alignUp (pos a : Nat) : Nat := pos + (a - pos % a) % a

/-- Lay the fields out in declaration order from byte position `pos`, each at
the next position aligned for its type. -/
def layoutFrom (abi : ABI) : Nat → List Field → List (Field × Nat)
  | _, [] => []
  | pos, f :: fs =>
    (f, alignUp pos (typeAlign abi f.type)) ::
      layoutFrom abi (alignUp pos (typeAlign abi f.type) + typeSize abi f.type) fs

/-- Offset and declared type of a named field of a structure. -/
def fieldAt (abi : ABI) (s : List Field) (name : FieldName) : Option (Nat × CType) :=
  ((layoutFrom abi 0 s).find? (fun p => p.1.name == name)).map (fun p => (p.2, p.1.type))

/-- The underlying types of the first `n` fields of a structure. -/
def initialSequence (n : Nat) (s : List Field) : List CType :=
  (s.take n).map (fun f => f.type.underlying)

/-- Byte-addressed memory. -/
abbrev Mem := Nat → Nat

/-- Write the bytes `bs` at address `addr` and upwards. -/
def storeBytes (m : Mem) (addr : Nat) (bs : List Nat) : Mem :=
  fun a => if addr ≤ a ∧ a < addr + bs.length then bs.getD (a - addr) 0 else m a

/-- Read `n` bytes from address `addr` upwards. -/
def loadBytes (m : Mem) (addr n : Nat) : List Nat :=
  (List.range n).map (fun i => m (addr + i))

/-- The `n` low bytes of `v`, least significant first. -/
def encodeLE : Nat → Nat → List Nat
  | 0, _ => []
  | n + 1, v => (v % 256) :: encodeLE n (v / 256)

/-- The number whose bytes, least significant first, are `bs`. -/
def decodeLE : List Nat → Nat
  | [] => 0
  | b :: bs => b + 256 * decodeLE bs

/-- Object representation of the integer `v` in the type `t`: the value modulo
`256 ^ size` (two-complement for negative values) in the byte order of the target. -/
def encodeScalar (abi : ABI) (t : CType) (v : Int) : List Nat :=
  let bs := encodeLE (typeSize abi t) (v % (256 : Int) ^ typeSize abi t).toNat
  if abi.bigEndian then bs.reverse else bs

/-- Value of an object representation read in the type `t`. -/
def decodeScalar (abi : ABI) (t : CType) (bs : List Nat) : Int :=
  let u := decodeLE (if abi.bigEndian then bs.reverse else bs)
  if isSigned t = true ∧ 256 ^ bs.length ≤ 2 * u then (u : Int) - (256 : Int) ^ bs.length
  else (u : Int)

/-- The values an object of type `t` can hold. -/
def representable (abi : ABI) (t : CType) (v : Int) : Prop :=
  if isSigned t = true then
    -((256 : Int) ^ typeSize abi t) ≤ 2 * v ∧ 2 * v < (256 : Int) ^ typeSize abi t
  else 0 ≤ v ∧ v < (256 : Int) ^ typeSize abi t

/-- Assignment `p->name = v` where `p` points to a structure `s` at address `base`. -/
def storeField (abi : ABI) (s : List Field) (base : Nat) (name : FieldName) (v : Int)
    (m : Mem) : Option Mem :=
  (fieldAt abi s name).map
    (fun p => storeBytes m (base + p.1) (encodeScalar abi p.2 v))

/-- Read of `p->name` where `p` points to a structure `s` at address `base`. -/
def loadField (abi : ABI) (s : List Field) (base : Nat) (name : FieldName) (m : Mem) :
    Option Int :=
  (fieldAt abi s name).map
    (fun p => decodeScalar abi p.2 (loadBytes m (base + p.1) (typeSize abi p.2)))

/-! ## Documented return values of the declared functions

The functions are implemented outside the header; what the header fixes is
the `@return` text of each prototype. Each clause of that text is recorded with
the outcome it describes and the set of values it allows. -/

theorem and_shifted_mask (v s k : Nat) :
    v &&& ((2 ^ k - 1) <<< s) = ((v / 2 ^ s) % 2 ^ k) * 2 ^ s := by
  apply Nat.eq_of_testBit_eq
  intro i
  rw [← Nat.shiftRight_eq_div_pow, ← Nat.shiftLeft_eq]
  simp only [Nat.testBit_shiftRight, Nat.testBit_and, Nat.testBit_shiftLeft,
    Nat.testBit_mod_two_pow, Nat.testBit_two_pow_sub_one]
  by_cases h : s ≤ i
  · have : s + (i - s) = i := by omega
    simp [h, this, Bool.and_comm]
  · simp [h]

theorem or_eq_add_of_lt (a b k : Nat) (hb : b < 2 ^ k) :
    b ||| (a * 2 ^ k) = b + a * 2 ^ k := by
  rw [Nat.or_comm, Nat.mul_comm, ← Nat.mul_add_lt_is_or hb, Nat.add_comm]

theorem or_bytes (a b c d : Nat) (ha : a < 256) (hb : b < 256) (hc : c < 256) :
    a ||| b * 2 ^ 8 ||| c * 2 ^ 16 ||| d * 2 ^ 24
      = a + b * 2 ^ 8 + c * 2 ^ 16 + d * 2 ^ 24 := by
  rw [or_eq_add_of_lt b a 8 (by omega), or_eq_add_of_lt c _ 16 (by omega),
    or_eq_add_of_lt d _ 24 (by omega)]

theorem byte_of_bytes (a b c d : Nat) (ha : a < 256) (hb : b < 256) (hc : c < 256)
    (hd : d < 256) :
    (a + b * 2 ^ 8 + c * 2 ^ 16 + d * 2 ^ 24) / 256 ^ 0 % 256 = a ∧
    (a + b * 2 ^ 8 + c * 2 ^ 16 + d * 2 ^ 24) / 256 ^ 1 % 256 = b ∧
    (a + b * 2 ^ 8 + c * 2 ^ 16 + d * 2 ^ 24) / 256 ^ 2 % 256 = c ∧
    (a + b * 2 ^ 8 + c * 2 ^ 16 + d * 2 ^ 24) / 256 ^ 3 % 256 = d := by
  norm_num
  refine ⟨?_, ?_, ?_, ?_⟩ <;> omega

/-- The value of `NRF_HTONS` on any argument, in terms of division and remainder. -/
theorem NRF_HTONS_eq (v : Nat) : NRF_HTONS v = (v % 256) * 256 + (v / 256) % 256 := by
  unfold NRF_HTONS
  have h1 : (0xff00 : Nat) = (2 ^ 8 - 1) <<< 8 := by decide
  have h2 : (0xff : Nat) = (2 ^ 8 - 1) <<< 0 := by decide
  rw [h1, and_shifted_mask, h2, and_shifted_mask, Nat.shiftRight_eq_div_pow, Nat.shiftLeft_eq]
  have e : v / 2 ^ 0 % 2 ^ 8 * 2 ^ 0 * 2 ^ 8 = (v % 256) * 2 ^ 8 := by norm_num
  have e2 : v / 2 ^ 8 % 2 ^ 8 * 2 ^ 8 / 2 ^ 8 = v / 256 % 256 := by
    rw [Nat.mul_div_cancel _ (by norm_num)]; norm_num
  rw [e, e2, or_eq_add_of_lt _ _ _ (by norm_num; omega)]
  norm_num
  omega

/-- The value of `NRF_HTONL` on any argument: the four low bytes, reversed. -/
theorem NRF_HTONL_eq (v : Nat) :
    NRF_HTONL v = (v / 2 ^ 24) % 256 + ((v / 2 ^ 16) % 256) * 2 ^ 8
      + ((v / 2 ^ 8) % 256) * 2 ^ 16 + (v % 256) * 2 ^ 24 := by
  unfold NRF_HTONL
  have h3 : (0xff000000 : Nat) = (2 ^ 8 - 1) <<< 24 := by decide
  have h2 : (0x00ff0000 : Nat) = (2 ^ 8 - 1) <<< 16 := by decide
  have h1 : (0x0000ff00 : Nat) = (2 ^ 8 - 1) <<< 8 := by decide
  have h0 : (0x000000ff : Nat) = (2 ^ 8 - 1) <<< 0 := by decide
  rw [h3, h2, h1, h0]
  simp only [and_shifted_mask]
  simp only [Nat.shiftRight_eq_div_pow, Nat.shiftLeft_eq]
  have e3 : v % 2 ^ 32 / 2 ^ 24 % 2 ^ 8 * 2 ^ 24 / 2 ^ 24 = (v / 2 ^ 24) % 256 := by
    rw [Nat.mul_div_cancel _ (by norm_num)]; norm_num; omega
  have e2 : v % 2 ^ 32 / 2 ^ 16 % 2 ^ 8 * 2 ^ 16 / 2 ^ 8 = ((v / 2 ^ 16) % 256) * 2 ^ 8 := by
    norm_num; omega
  have e1 : v % 2 ^ 32 / 2 ^ 8 % 2 ^ 8 * 2 ^ 8 * 2 ^ 8 % 2 ^ 32
      = ((v / 2 ^ 8) % 256) * 2 ^ 16 := by
    norm_num; omega
  have e0 : v % 2 ^ 32 / 2 ^ 0 % 2 ^ 8 * 2 ^ 0 * 2 ^ 24 % 2 ^ 32 = (v % 256) * 2 ^ 24 := by
    norm_num; omega
  rw [e3, e2, e1, e0]
  exact or_bytes _ _ _ _ (Nat.mod_lt _ (by norm_num)) (Nat.mod_lt _ (by norm_num))
    (Nat.mod_lt _ (by norm_num))

/-- The macro `NRF_HTONS` on a value given by its two bytes. -/
theorem NRF_HTONS_bytes (lo hi : Nat) (hlo : lo < 256) (hhi : hi < 256) :
    NRF_HTONS (lo + hi * 256) = hi + lo * 256 := by
  rw [NRF_HTONS_eq]
  omega

/-- The macro `NRF_HTONL` on a value given by its four bytes. -/
theorem NRF_HTONL_bytes (a b c d : Nat) (ha : a < 256) (hb : b < 256) (hc : c < 256)
    (hd : d < 256) :
    NRF_HTONL (a + b * 2 ^ 8 + c * 2 ^ 16 + d * 2 ^ 24)
      = d + c * 2 ^ 8 + b * 2 ^ 16 + a * 2 ^ 24 := by
  rw [NRF_HTONL_eq]
  have e3 : (a + b * 2 ^ 8 + c * 2 ^ 16 + d * 2 ^ 24) / 2 ^ 24 % 256 = d := by
    norm_num; omega
  have e2 : (a + b * 2 ^ 8 + c * 2 ^ 16 + d * 2 ^ 24) / 2 ^ 16 % 256 = c := by
    norm_num; omega
  have e1 : (a + b * 2 ^ 8 + c * 2 ^ 16 + d * 2 ^ 24) / 2 ^ 8 % 256 = b := by
    norm_num; omega
  have e0 : (a + b * 2 ^ 8 + c * 2 ^ 16 + d * 2 ^ 24) % 256 = a := by
    norm_num; omega
  rw [e3, e2, e1, e0]

/-- Applying `NRF_HTONS` twice to a 16-bit value gives the value back. -/
theorem NRF_HTONS_involutive (v : Nat) (hv : v < 65536) : NRF_HTONS (NRF_HTONS v) = v := by
  have hd : v = v % 256 + (v / 256) * 256 := by omega
  rw [hd, NRF_HTONS_bytes _ _ (Nat.mod_lt _ (by norm_num)) (by omega),
    NRF_HTONS_bytes _ _ (by omega) (Nat.mod_lt _ (by norm_num))]

/-- Applying `NRF_HTONL` twice to a 32-bit value gives the value back. -/
theorem NRF_HTONL_involutive (v : Nat) (hv : v < 2 ^ 32) : NRF_HTONL (NRF_HTONL v) = v := by
  have hd : v = v % 256 + (v / 2 ^ 8 % 256) * 2 ^ 8 + (v / 2 ^ 16 % 256) * 2 ^ 16
      + (v / 2 ^ 24) * 2 ^ 24 := by
    norm_num; omega
  have h3 : v / 2 ^ 24 < 256 := by
    norm_num at hv ⊢; omega
  rw [hd, NRF_HTONL_bytes _ _ _ _ (Nat.mod_lt _ (by norm_num)) (Nat.mod_lt _ (by norm_num))
      (Nat.mod_lt _ (by norm_num)) h3,
    NRF_HTONL_bytes _ _ _ _ h3 (Nat.mod_lt _ (by norm_num)) (Nat.mod_lt _ (by norm_num))
      (Nat.mod_lt _ (by norm_num))]

/-- For a descriptor below 32 the shift `1u << fd` does not overflow. -/
theorem one_shl_mod (fd : Nat) (h : fd < 32) : (1 <<< fd) % 2 ^ 32 = 2 ^ fd := by
  rw [Nat.one_shiftLeft]
  exact Nat.mod_eq_of_lt (Nat.pow_lt_pow_right (by norm_num) h)

/-- The test `NRF_FD_ISSET` is non-zero exactly when bit `fd` of the set is set. -/
theorem NRF_FD_ISSET_ne_zero_iff (fd set : Nat) (h : fd < 32) :
    NRF_FD_ISSET fd set ≠ 0 ↔ set.testBit fd = true := by
  unfold NRF_FD_ISSET
  rw [one_shl_mod fd h, Nat.and_two_pow]
  have hp : 0 < 2 ^ fd := Nat.pow_pos (by norm_num)
  cases hb : set.testBit fd
  · simp
  · simp only [Bool.toNat_true, one_mul, ne_eq, iff_true]
    omega

/-- Bit `g` of the set after `NRF_FD_SET fd`. -/
theorem NRF_FD_SET_testBit (fd set g : Nat) (h : fd < 32) (hg : g < 32) :
    (NRF_FD_SET fd set).testBit g = (set.testBit g || decide (fd = g)) := by
  unfold NRF_FD_SET
  rw [one_shl_mod fd h, Nat.testBit_mod_two_pow, Nat.testBit_or, Nat.testBit_two_pow]
  simp [hg]

/-! ## Helper lemmas on byte memory and structure layout -/

theorem encodeLE_length (n v : Nat) : (encodeLE n v).length = n := by
  induction n generalizing v with
  | zero => rfl
  | succ n ih => simp [encodeLE, ih]

theorem decodeLE_encodeLE (n v : Nat) : decodeLE (encodeLE n v) = v % 256 ^ n := by
  induction n generalizing v with
  | zero => simp [encodeLE, decodeLE, Nat.mod_one]
  | succ n ih =>
    simp only [encodeLE, decodeLE, ih]
    rw [Nat.pow_succ, Nat.mul_comm (256 ^ n) 256, Nat.mod_mul]

theorem loadBytes_storeBytes (m : Mem) (addr : Nat) (bs : List Nat) :
    loadBytes (storeBytes m addr bs) addr bs.length = bs := by
  apply List.ext_getElem
  · simp [loadBytes]
  · intro i h1 h2
    simp only [loadBytes, storeBytes, List.getElem_map, List.getElem_range]
    have : addr ≤ addr + i ∧ addr + i < addr + bs.length := ⟨by omega, by omega⟩
    rw [if_pos this]
    simp [h2]

theorem encodeScalar_length (abi : ABI) (t : CType) (v : Int) :
    (encodeScalar abi t v).length = typeSize abi t := by
  unfold encodeScalar
  by_cases h : abi.bigEndian = true <;> simp [h, encodeLE_length]

theorem typeSize_congr (abi : ABI) (t u : CType) (h : t.underlying = u.underlying) :
    typeSize abi t = typeSize abi u := by
  unfold typeSize; rw [h]

theorem isSigned_congr (t u : CType) (h : t.underlying = u.underlying) :
    isSigned t = isSigned u := by
  unfold isSigned; rw [h]

theorem decodeScalar_encodeScalar (abi : ABI) (t u : CType) (v : Int)
    (h : t.underlying = u.underlying) (hv : representable abi t v) :
    decodeScalar abi u (encodeScalar abi t v) = v := by
  have hpos : (0 : Int) < (256 : Int) ^ typeSize abi t := by positivity
  have hnn : 0 ≤ v % (256 : Int) ^ typeSize abi t := Int.emod_nonneg _ (ne_of_gt hpos)
  have hlt : v % (256 : Int) ^ typeSize abi t < (256 : Int) ^ typeSize abi t :=
    Int.emod_lt_of_pos _ hpos
  have hu : decodeLE (if abi.bigEndian = true then (encodeScalar abi t v).reverse
      else encodeScalar abi t v) = (v % (256 : Int) ^ typeSize abi t).toNat := by
    unfold encodeScalar
    have : decodeLE (encodeLE (typeSize abi t) (v % (256 : Int) ^ typeSize abi t).toNat)
        = (v % (256 : Int) ^ typeSize abi t).toNat := by
      rw [decodeLE_encodeLE]
      apply Nat.mod_eq_of_lt
      have : ((v % (256 : Int) ^ typeSize abi t).toNat : Int)
          < ((256 ^ typeSize abi t : Nat) : Int) := by
        rw [Int.toNat_of_nonneg hnn]; push_cast; exact hlt
      exact_mod_cast this
    by_cases hb : abi.bigEndian = true <;> simp [hb, this]
  unfold decodeScalar
  simp only [hu, encodeScalar_length]
  rw [← isSigned_congr t u h]
  have hcast : (((v % (256 : Int) ^ typeSize abi t).toNat : Nat) : Int)
      = v % (256 : Int) ^ typeSize abi t := Int.toNat_of_nonneg hnn
  have hP : (((256 : Nat) ^ typeSize abi t : Nat) : Int) = (256 : Int) ^ typeSize abi t := by
    push_cast; rfl
  unfold representable at hv
  generalize (256 : Int) ^ typeSize abi t = P at *
  generalize (256 : Nat) ^ typeSize abi t = Q at *
  generalize (v % P).toNat = U at *
  have hr : v % P = v ∨ v % P = v + P := by
    by_cases h0 : 0 ≤ v
    · left
      apply Int.emod_eq_of_lt h0
      by_cases hs : isSigned t = true
      · rw [if_pos hs] at hv; omega
      · rw [if_neg hs] at hv; omega
    · right
      have hs : isSigned t = true := by
        by_contra hs
        rw [if_neg hs] at hv
        omega
      rw [if_pos hs] at hv
      rw [← Int.add_emod_self]
      apply Int.emod_eq_of_lt <;> omega
  by_cases hs : isSigned t = true
  · rw [if_pos hs] at hv
    by_cases hc : Q ≤ 2 * U
    · rw [if_pos ⟨hs, hc⟩]; omega
    · rw [if_neg (fun h => hc h.2)]; omega
  · rw [if_neg hs] at hv
    rw [if_neg (fun h => hs h.1)]
    omega

theorem load_store_through_view (abi : ABI) (m : Mem) (base : Nat) (v : Int)
    (s s2 : List Field) (n n2 : FieldName) (off : Nat) (t t2 : CType)
    (hs : fieldAt abi s n = some (off, t)) (hs2 : fieldAt abi s2 n2 = some (off, t2))
    (ht : t.underlying = t2.underlying) (hv : representable abi t v) :
    (storeField abi s base n v m).bind (loadField abi s2 base n2) = some v := by
  unfold storeField loadField
  rw [hs, hs2]
  simp only [Option.map_some', Option.some_bind, Option.some.injEq]
  rw [← typeSize_congr abi t t2 ht, ← encodeScalar_length abi t v, loadBytes_storeBytes]
  exact decodeScalar_encodeScalar abi t t2 v ht hv

theorem fieldAt_sa_len (abi : ABI) : fieldAt abi nrf_sockaddr .sa_len = some (0, .uint8_t) := by
  simp [fieldAt, layoutFrom, nrf_sockaddr, typeAlign, CType.underlying, CType.resolve,
    CType.typedefOf, alignUp]

theorem fieldAt_sa_family (abi : ABI) :
    fieldAt abi nrf_sockaddr .sa_family = some (alignUp 1 abi.intAlign, .int) := by
  simp [fieldAt, layoutFrom, nrf_sockaddr, typeAlign, typeSize, CType.underlying,
    CType.resolve, CType.typedefOf, alignUp]

theorem fieldAt_sin_family (abi : ABI) :
    fieldAt abi nrf_sockaddr_in .sin_family
      = some (alignUp 1 abi.intAlign, .nrf_sa_family_t) := by
  simp [fieldAt, layoutFrom, nrf_sockaddr_in, typeAlign, typeSize, CType.underlying,
    CType.resolve, CType.typedefOf, alignUp]

theorem fieldAt_sin6_family (abi : ABI) :
    fieldAt abi nrf_sockaddr_in6 .sin6_family
      = some (alignUp 1 abi.intAlign, .nrf_sa_family_t) := by
  simp [fieldAt, layoutFrom, nrf_sockaddr_in6, typeAlign, typeSize, CType.underlying,
    CType.resolve, CType.typedefOf, alignUp]

theorem fieldAt_sin_len (abi : ABI) :
    fieldAt abi nrf_sockaddr_in .sin_len = some (0, .uint8_t) := by
  simp [fieldAt, layoutFrom, nrf_sockaddr_in, typeAlign, CType.underlying, CType.resolve,
    CType.typedefOf, alignUp]

theorem fieldAt_sin6_len (abi : ABI) :
    fieldAt abi nrf_sockaddr_in6 .sin6_len = some (0, .uint8_t) := by
  simp [fieldAt, layoutFrom, nrf_sockaddr_in6, typeAlign, CType.underlying, CType.resolve,
    CType.typedefOf, alignUp]

/-- A bitwise OR is non-zero exactly when one of its operands is. -/
theorem or_ne_zero_iff (x y : Nat) : x ||| y ≠ 0 ↔ x ≠ 0 ∨ y ≠ 0 := by
  constructor
  · intro h
    by_contra hc
    push_neg at hc
    rw [hc.1, hc.2] at h
    exact h (by decide)
  · intro h hxy
    have hx : x = 0 := by
      apply Nat.eq_of_testBit_eq
      intro i
      have := congrArg (fun n => Nat.testBit n i) hxy
      simp only [Nat.testBit_or, Nat.zero_testBit, Bool.or_eq_false_iff] at this
      simpa using this.1
    have hy : y = 0 := by
      apply Nat.eq_of_testBit_eq
      intro i
      have := congrArg (fun n => Nat.testBit n i) hxy
      simp only [Nat.testBit_or, Nat.zero_testBit, Bool.or_eq_false_iff] at this
      simpa using this.2
    rcases h with h | h
    · exact h hx
    · exact h hy

/-! ## Claims -/

/-- C1: for every 16-bit value `v`, `NRF_HTONS v` (and its alias `nrf_htons`) is `v`
with its two bytes exchanged, `(v mod 256) * 256 + (v div 256)`: the low byte of
the result is the high byte of `v` and the high byte of the result is the low
byte of `v`, so the little-endian byte pair of the result is the big-endian
byte pair of `v`. -/
theorem C1_htons_swaps_bytes (v : Nat) (hv : v < 65536) :
    NRF_HTONS v = (v % 256) * 256 + v / 256 ∧
    nrf_htons v = (v % 256) * 256 + v / 256 ∧
    NRF_HTONS v < 65536 ∧
    [NRF_HTONS v % 256, NRF_HTONS v / 256] = [v / 256, v % 256] := by
  have h : NRF_HTONS v = (v % 256) * 256 + v / 256 := by
    rw [NRF_HTONS_eq]; omega
  refine ⟨h, h, ?_, ?_⟩
  · rw [h]; omega
  · rw [h]
    simp only [List.cons.injEq, and_true]
    constructor <;> omega

/-- Witness of C1 at `v = 0x1234`. -/
theorem C1_htons_swaps_bytes_witness :
    (0x1234 : Nat) < 65536 ∧ NRF_HTONS 0x1234 = 0x3412 :=
  ⟨by decide, (C1_htons_swaps_bytes 0x1234 (by decide)).1⟩

/-- C2: for every 32-bit value `v`, `NRF_HTONL v` (and its alias `nrf_htonl`) is `v`
with its four bytes reversed: byte `i` of the result (least significant first,
`i = 0..3`) is byte `3 - i` of `v`, and the result is again below `2 ^ 32`. -/
theorem C2_htonl_reverses_bytes (v : Nat) (hv : v < 2 ^ 32) :
    (∀ i, i < 4 → (NRF_HTONL v / 256 ^ i) % 256 = (v / 256 ^ (3 - i)) % 256) ∧
    NRF_HTONL v < 2 ^ 32 ∧
    NRF_HTONL v = v / 2 ^ 24 + ((v / 2 ^ 16) % 256) * 2 ^ 8
      + ((v / 2 ^ 8) % 256) * 2 ^ 16 + (v % 256) * 2 ^ 24 ∧
    nrf_htonl v = NRF_HTONL v := by
  have h := byte_of_bytes (v / 2 ^ 24 % 256) (v / 2 ^ 16 % 256) (v / 2 ^ 8 % 256) (v % 256)
    (Nat.mod_lt _ (by norm_num)) (Nat.mod_lt _ (by norm_num)) (Nat.mod_lt _ (by norm_num))
    (Nat.mod_lt _ (by norm_num))
  refine ⟨?_, ?_, ?_, rfl⟩
  · intro i hi
    rw [NRF_HTONL_eq]
    obtain ⟨h0, h1, h2, h3⟩ := h
    interval_cases i
    · rw [h0]; norm_num
    · rw [h1]; norm_num
    · rw [h2]; norm_num
    · rw [h3]; norm_num
  · rw [NRF_HTONL_eq]; norm_num; omega
  · rw [NRF_HTONL_eq]; norm_num at hv ⊢; omega

/-- Witness of C2 at `v = 0x12345678`. -/
theorem C2_htonl_reverses_bytes_witness :
    (0x12345678 : Nat) < 2 ^ 32 ∧ NRF_HTONL 0x12345678 < 2 ^ 32 :=
  ⟨by decide, (C2_htonl_reverses_bytes 0x12345678 (by decide)).2.1⟩

/-- C3: network-to-host undoes host-to-network on a half word, in both orders,
for the macros and for the lowercase aliases. -/
theorem C3_ntohs_htons_inverse (v : Nat) (hv : v < 65536) :
    NRF_NTOHS (NRF_HTONS v) = v ∧ NRF_HTONS (NRF_NTOHS v) = v ∧
    nrf_ntohs (nrf_htons v) = v ∧ nrf_htons (nrf_ntohs v) = v := by
  have h := NRF_HTONS_involutive v hv
  exact ⟨h, h, h, h⟩

/-- Witness of C3 at `v = 0xBEEF`. -/
theorem C3_ntohs_htons_inverse_witness :
    (0xBEEF : Nat) < 65536 ∧ NRF_NTOHS (NRF_HTONS 0xBEEF) = 0xBEEF :=
  ⟨by decide, (C3_ntohs_htons_inverse 0xBEEF (by decide)).1⟩

/-- C4: network-to-host undoes host-to-network on a full word, in both orders,
for the macros and for the lowercase aliases. -/
theorem C4_ntohl_htonl_inverse (v : Nat) (hv : v < 2 ^ 32) :
    NRF_NTOHL (NRF_HTONL v) = v ∧ NRF_HTONL (NRF_NTOHL v) = v ∧
    nrf_ntohl (nrf_htonl v) = v ∧ nrf_htonl (nrf_ntohl v) = v := by
  have h := NRF_HTONL_involutive v hv
  exact ⟨h, h, h, h⟩

/-- Witness of C4 at `v = 0xC0A80001`. -/
theorem C4_ntohl_htonl_inverse_witness :
    (0xC0A80001 : Nat) < 2 ^ 32 ∧ NRF_NTOHL (NRF_HTONL 0xC0A80001) = 0xC0A80001 :=
  ⟨by decide, (C4_ntohl_htonl_inverse 0xC0A80001 (by decide)).1⟩

/-- C5: for every `nrf_fd_set` value `s` and descriptor `fd` below 32, after
`NRF_FD_SET(fd, &s)` the test `NRF_FD_ISSET(fd, &s)` is non-zero, and for every
other descriptor `g` below 32 the test is non-zero after the call if and only
if it was non-zero before; the new set is again a 32-bit value. -/
theorem C5_fd_set_sets_only_that_bit (s fd : Nat) (hs : s < 2 ^ 32) (hfd : fd < 32) :
    NRF_FD_ISSET fd (NRF_FD_SET fd s) ≠ 0 ∧
    (∀ g, g < 32 → g ≠ fd →
      (NRF_FD_ISSET g (NRF_FD_SET fd s) ≠ 0 ↔ NRF_FD_ISSET g s ≠ 0)) ∧
    NRF_FD_SET fd s < 2 ^ 32 ∧
    NRF_FD_SET fd s = s ||| 2 ^ fd := by
  refine ⟨?_, ?_, ?_, ?_⟩
  · rw [NRF_FD_ISSET_ne_zero_iff _ _ hfd, NRF_FD_SET_testBit _ _ _ hfd hfd]
    simp
  · intro g hg hne
    rw [NRF_FD_ISSET_ne_zero_iff _ _ hg, NRF_FD_ISSET_ne_zero_iff _ _ hg,
      NRF_FD_SET_testBit _ _ _ hfd hg]
    have : ¬ fd = g := fun e => hne e.symm
    simp [this]
  · exact Nat.mod_lt _ (by norm_num)
  · unfold NRF_FD_SET
    rw [one_shl_mod fd hfd]
    exact Nat.mod_eq_of_lt (Nat.or_lt_two_pow hs (Nat.pow_lt_pow_right (by norm_num) hfd))

/-- Witness of C5 at the set `0x5` and descriptor 31. -/
theorem C5_fd_set_sets_only_that_bit_witness :
    (5 : Nat) < 2 ^ 32 ∧ (31 : Nat) < 32 ∧ NRF_FD_ISSET 31 (NRF_FD_SET 31 5) ≠ 0 :=
  ⟨by decide, by decide, (C5_fd_set_sets_only_that_bit 5 31 (by decide) (by decide)).1⟩

/-- C6: the four poll events are single-bit values that fit in a non-negative
`short`, pairwise disjoint, and for every collection `S` of events the OR `m` of
its members satisfies `(m & e) != 0` exactly for the events `e` in `S`; such a
mask again fits in a non-negative `short`. -/
theorem C6_poll_events_form_a_mask :
    (∀ e : PollEvent, ∃ k, k < 15 ∧ e.bits = 2 ^ k) ∧
    (∀ e f : PollEvent, e ≠ f → e.bits &&& f.bits = 0) ∧
    (∀ (S : List PollEvent) (e : PollEvent), pollMask S &&& e.bits ≠ 0 ↔ e ∈ S) ∧
    (∀ S : List PollEvent, pollMask S < 2 ^ 15) := by
  refine ⟨?_, ?_, ?_, ?_⟩
  · intro e
    cases e
    · exact ⟨0, by decide, by decide⟩
    · exact ⟨1, by decide, by decide⟩
    · exact ⟨2, by decide, by decide⟩
    · exact ⟨3, by decide, by decide⟩
  · intro e f hne
    cases e <;> cases f <;> first | exact absurd rfl hne | decide
  · intro S e
    induction S with
    | nil => simp [pollMask]
    | cons a S ih =>
      have hd : (a.bits ||| pollMask S) &&& e.bits
          = (a.bits &&& e.bits) ||| (pollMask S &&& e.bits) := by
        apply Nat.eq_of_testBit_eq
        intro i
        simp only [Nat.testBit_and, Nat.testBit_or]
        cases Nat.testBit a.bits i <;> cases Nat.testBit (pollMask S) i <;>
          cases Nat.testBit e.bits i <;> rfl
      have ha : a.bits &&& e.bits ≠ 0 ↔ e = a := by
        cases a <;> cases e <;> decide
      show (a.bits ||| pollMask S) &&& e.bits ≠ 0 ↔ e ∈ a :: S
      rw [hd, or_ne_zero_iff, ha, ih, List.mem_cons]
  · intro S
    induction S with
    | nil => simp [pollMask]
    | cons a S ih =>
      have hb : a.bits < 2 ^ 15 := by cases a <;> decide
      exact Nat.or_lt_two_pow hb ih

/-- C7: the four option levels are pairwise distinct, the header defines 19
option names (3 general, 7 secure, 2 PDN, 7 DFU), and the map sending an option
to its `(level, optname)` pair is injective. -/
theorem C7_level_and_name_identify_option :
    optionLevels.Nodup ∧
    SockOpt.all.length = 19 ∧ SockOpt.all.Nodup ∧ (∀ o : SockOpt, o ∈ SockOpt.all) ∧
    (optionsOfLevel NRF_SOL_SOCKET).length = 3 ∧
    (optionsOfLevel NRF_SOL_SECURE).length = 7 ∧
    (optionsOfLevel NRF_SOL_PDN).length = 2 ∧
    (optionsOfLevel NRF_SOL_DFU).length = 7 ∧
    Function.Injective SockOpt.key := by
  refine ⟨by decide, by decide, by decide, ?_, by decide, by decide, by decide, by decide, ?_⟩
  · intro o
    cases o <;> decide
  · intro a b h
    cases a <;> cases b <;> first | rfl | exact absurd h (by decide)

/-- C8: in each argument namespace of `nrf_socket(family, type, protocol)` the
constants have the stated values and are pairwise distinct. -/
theorem C8_socket_argument_constants_distinct :
    socketFamilies = [1, 2, 10, 102] ∧ socketFamilies.Nodup ∧
    socketTypes = [1, 2, 512] ∧ socketTypes.Nodup ∧
    socketProtocols = [1, 2, 260, 261, 270, 513, 514, 515] ∧ socketProtocols.Nodup := by
  refine ⟨by decide, by decide, by decide, by decide, by decide, by decide⟩

/-- C9: the three socket address structures share the initial field sequence
`uint8_t` length, `int` family (after typedef resolution), the two fields lie at
the same offsets in all three, and therefore for every target (size and
alignment of `int`, byte order), memory and address: a value stored in
`sin_family` or `sin6_family` is the value read as `sa_family` through a pointer
cast to `struct nrf_sockaddr`, and a length stored in `sin_len` or `sin6_len` is
the value read as `sa_len`; `nrf_sa_family_t` is a typedef of
`nrf_socket_family_t`, which is a typedef of `int`. -/
theorem C9_sockaddr_common_initial_sequence (abi : ABI) (m : Mem) (base : Nat)
    (fam len : Int) (hfam : representable abi .nrf_sa_family_t fam)
    (hlen : representable abi .uint8_t len) :
    initialSequence 2 nrf_sockaddr = [.uint8_t, .int] ∧
    initialSequence 2 nrf_sockaddr_in = [.uint8_t, .int] ∧
    initialSequence 2 nrf_sockaddr_in6 = [.uint8_t, .int] ∧
    (fieldAt abi nrf_sockaddr_in .sin_len).map Prod.fst
      = (fieldAt abi nrf_sockaddr .sa_len).map Prod.fst ∧
    (fieldAt abi nrf_sockaddr_in6 .sin6_len).map Prod.fst
      = (fieldAt abi nrf_sockaddr .sa_len).map Prod.fst ∧
    (fieldAt abi nrf_sockaddr_in .sin_family).map Prod.fst
      = (fieldAt abi nrf_sockaddr .sa_family).map Prod.fst ∧
    (fieldAt abi nrf_sockaddr_in6 .sin6_family).map Prod.fst
      = (fieldAt abi nrf_sockaddr .sa_family).map Prod.fst ∧
    (storeField abi nrf_sockaddr_in base .sin_family fam m).bind
      (loadField abi nrf_sockaddr base .sa_family) = some fam ∧
    (storeField abi nrf_sockaddr_in6 base .sin6_family fam m).bind
      (loadField abi nrf_sockaddr base .sa_family) = some fam ∧
    (storeField abi nrf_sockaddr_in base .sin_len len m).bind
      (loadField abi nrf_sockaddr base .sa_len) = some len ∧
    (storeField abi nrf_sockaddr_in6 base .sin6_len len m).bind
      (loadField abi nrf_sockaddr base .sa_len) = some len ∧
    CType.typedefOf .nrf_sa_family_t = some .nrf_socket_family_t ∧
    CType.typedefOf .nrf_socket_family_t = some .int := by
  refine ⟨by decide, by decide, by decide, ?_, ?_, ?_, ?_, ?_, ?_, ?_, ?_, rfl, rfl⟩
  · rw [fieldAt_sin_len, fieldAt_sa_len]
  · rw [fieldAt_sin6_len, fieldAt_sa_len]
  · rw [fieldAt_sin_family, fieldAt_sa_family]; rfl
  · rw [fieldAt_sin6_family, fieldAt_sa_family]; rfl
  · exact load_store_through_view abi m base fam _ _ _ _ _ _ _
      (fieldAt_sin_family abi) (fieldAt_sa_family abi) (by decide) hfam
  · exact load_store_through_view abi m base fam _ _ _ _ _ _ _
      (fieldAt_sin6_family abi) (fieldAt_sa_family abi) (by decide) hfam
  · exact load_store_through_view abi m base len _ _ _ _ _ _ _
      (fieldAt_sin_len abi) (fieldAt_sa_len abi) rfl hlen
  · exact load_store_through_view abi m base len _ _ _ _ _ _ _
      (fieldAt_sin6_len abi) (fieldAt_sa_len abi) rfl hlen

/-- Witness of C9 on the 32-bit Arm target: family `NRF_AF_INET6` (10) and length
28 stored in a `struct nrf_sockaddr_in6` at address 64 of a zeroed memory. -/
theorem C9_sockaddr_common_initial_sequence_witness :
    representable ABI.arm32 .nrf_sa_family_t 10 ∧
    representable ABI.arm32 .uint8_t 28 ∧
    (storeField ABI.arm32 nrf_sockaddr_in6 64 .sin6_family 10 (fun _ => 0)).bind
      (loadField ABI.arm32 nrf_sockaddr 64 .sa_family) = some 10 :=
  ⟨by unfold representable; decide, by unfold representable; decide,
    (C9_sockaddr_common_initial_sequence ABI.arm32 (fun _ => 0) 64 10 28
      (by unfold representable; decide) (by unfold representable; decide)).2.2.2.2.2.2.2.2.1⟩

end NrfSocket
